import Mathlib

/-!
Shallow embedding of the babble node runtime (package `node`, files
`commands.go` and `peer_selector.go`), together with theorems checking the
natural-language specification against it.

Conventions of the embedding:
* Go `uint32` ids are modelled as `Nat` (no arithmetic is performed on them).
* Go errors are modelled as `Option Err` (`none` = nil error), and functions
  returning `(value, error)` return the pair.
* Effects (state writes, channel sends, RPC calls, lock operations) are
  modelled as explicit action traces: each routine is a pure function from
  its inputs and the outcomes of its external calls to the list of actions
  it performs, transcribed line by line from the Go source.
* Results of external collaborators that are not part of the sources
  (the consensus core's methods, the transport round-trips, `rand.Intn`)
  enter as parameters: one parameter per call outcome.
-/

namespace Babble

/-- Go `error` values; only identity matters. -/
abbrev Err := String

/-- `map[uint32]int`: per-peer highest known event index, as an association list. -/
abbrev KnownMap := List (Nat × Int)

/-- An opaque hashgraph event (`hg.Event`). -/
abbrev HgEvent := Nat

/-- An opaque wire-format event (`hg.WireEvent`). -/
abbrev WireEvent := Nat

/-- `peers.Peer`: the fields the node reads (`ID`, `NetAddr`, `PubKeyHex`). -/
structure Peer where
  id : Nat
  netAddr : String
  pubKeyHex : String
deriving DecidableEq, Repr

/-- The node state enumeration of `state.go` (Babbling, CatchingUp, Joining, Shutdown). -/
inductive NState where
  | Babbling
  | CatchingUp
  | Joining
  | ShutdownSt
deriving DecidableEq, Repr

/-! ## Peer selector (`peer_selector.go`) -/

/-- Modelled from the spec: `peers.ExcludePeer` lives in the `peers` package,
which is not among the sources; per the spec ("the current peer set minus
self, ... minus the last-contacted") it removes every peer carrying the given
id and keeps the rest in order. The Go function also returns the index of the
removed peer, which `Next` discards. -/
def ExcludePeer (ps : List Peer) (pid : Nat) : List Peer :=
  ps.filter (fun p => p.id ≠ pid)

/-- `RandomPeerSelector`: peer set, own id, and the last-contacted id. -/
structure RandomPeerSelector where
  peers : List Peer
  selfID : Nat
  last : Nat
deriving Repr

/-- `NewRandomPeerSelector`: `last` starts at the zero value of `uint32`. -/
def NewRandomPeerSelector (peerSet : List Peer) (selfID : Nat) : RandomPeerSelector :=
  { peers := peerSet, selfID := selfID, last := 0 }

/-- `(*RandomPeerSelector).UpdateLast`. -/
def RandomPeerSelector.UpdateLast (ps : RandomPeerSelector) (peer : Nat) :
    RandomPeerSelector :=
  { ps with last := peer }

/-- `(*RandomPeerSelector).Next`.  The draw of `rand.Intn` is supplied as the
parameter `r`; any natural number yields the in-range index `r % length`. -/
def RandomPeerSelector.Next (ps : RandomPeerSelector) (r : Nat) : Option Peer :=
  let selectable1 := ExcludePeer ps.peers ps.selfID
  let selectable :=
    if selectable1.length > 1 then ExcludePeer selectable1 ps.last else selectable1
  if h : selectable.length = 0 then
    none
  else
    some (selectable.get ⟨r % selectable.length, Nat.mod_lt r (Nat.pos_of_ne_zero h)⟩)

/-! ## `resetTimer` (`commands.go`) -/

/-- `time.Second` in nanoseconds, the unit of Go `time.Duration`. -/
def oneSecondNs : Nat := 1000000000

/-- `(*Node).resetTimer`, as the interval sent on `controlTimer.resetCh`:
`none` when the timer is already armed (`controlTimer.set`), otherwise the
chosen `time.Duration` in nanoseconds.  `heartbeatNs` is
`conf.HeartbeatTimeout`; the pools are the core's `transactionPool` and
`blockSignaturePool`; `pending` is `core.hg.PendingLoadedEvents`. -/
def resetTimerInterval (timerSet : Bool) (heartbeatNs : Nat) (pending : Nat)
    (txPool : List (List Nat)) (sigPool : List Nat) : Option Nat :=
  if timerSet then
    none
  else
    let ts := heartbeatNs
    let ts := if pending = 0 ∧ txPool.length = 0 ∧ sigPool.length = 0 then oneSecondNs else ts
    some ts

/-! ## The tick branch of `babble` (`commands.go`) -/

/-- Actions the `case <-n.controlTimer.tickCh:` branch of `babble` may perform. -/
inductive BabbleAction where
  | spawnGossip (p : Peer)
  | resetTimer
deriving DecidableEq, Repr

/-- The tick branch of `(*Node).babble`, as the actions performed until the
loop waits again.  `sel` is the result of `core.peerSelector.Next()` (read
only when `gossip` is enabled).  Transcription: when gossip is enabled and the
selector returns `nil`, the branch logs "Waiting for peers..." and `continue`s
(performing nothing else); otherwise it spawns the gossip task; in either
remaining case it ends with `n.resetTimer()`. -/
def babbleTick (gossip : Bool) (sel : Option Peer) : List BabbleAction :=
  if gossip then
    match sel with
    | none => []
    | some p => [BabbleAction.spawnGossip p, BabbleAction.resetTimer]
  else
    [BabbleAction.resetTimer]

/-! ## `gossip` (`commands.go`) -/

/-- The observable actions of one `(*Node).gossip(peer, parentReturnCh)` run. -/
inductive GAction where
  | pullCall
  | setState (s : NState)
  | sendReturn
  | pushCall
  | selectorLock
  | updateLast (pid : Nat)
  | selectorUnlock
  | logStats
deriving DecidableEq, Repr

/-- What `(*Node).pull` reported back to `gossip`: an error, the sync-limit
flag, or success with the remote's known map. -/
inductive PullReport where
  | perr (e : Err)
  | limit
  | ok (known : KnownMap)
deriving DecidableEq, Repr

/-- `(*Node).gossip`, as the trace of actions it performs and its returned
error.  `pr` is the outcome of `n.pull(peer)`; `pushErr` is the outcome of
`n.push(peer, otherKnownEvents)` (consulted only if push runs).
Transcription: pull error returns it at once; sync-limit sets the state to
CatchingUp and writes to `parentReturnCh` then returns nil; otherwise push
runs, an error from it is returned, and on push success `UpdateLast(peer.ID)`
is executed between `selectorLock.Lock()` and `selectorLock.Unlock()`
followed by `logStats()`. -/
def gossip (peer : Peer) (pr : PullReport) (pushErr : Option Err) :
    List GAction × Option Err :=
  match pr with
  | PullReport.perr e => ([GAction.pullCall], some e)
  | PullReport.limit =>
      ([GAction.pullCall, GAction.setState NState.CatchingUp, GAction.sendReturn], none)
  | PullReport.ok _ =>
      match pushErr with
      | some e => ([GAction.pullCall, GAction.pushCall], some e)
      | none =>
          ([GAction.pullCall, GAction.pushCall, GAction.selectorLock,
            GAction.updateLast peer.id, GAction.selectorUnlock, GAction.logStats], none)

/-- `(*Node).pull`, reducing the Go triple `(syncLimit, otherKnownEvents, err)`
to a `PullReport`.  `reqRes` is the outcome of `requestSync` (a `SyncResponse`
or a transport error, given as the pair of the sync-limit flag and the
remote's known map on success); `syncErr` is the outcome of `n.sync(resp.Events)`
(consulted only when the response is not sync-limited). -/
def pull (reqRes : Except Err (Bool × KnownMap)) (syncErr : Option Err) : PullReport :=
  match reqRes with
  | Except.error e => PullReport.perr e
  | Except.ok (limitFlag, remoteKnown) =>
      if limitFlag then PullReport.limit
      else
        match syncErr with
        | some e => PullReport.perr e
        | none => PullReport.ok remoteKnown

/-! ## `processSyncRequest` (`commands.go`) -/

/-- `net.SyncResponse`. -/
structure SyncResponse where
  fromID : Nat
  syncLimit : Bool
  events : List WireEvent
  known : KnownMap
deriving DecidableEq, Repr

/-- `(*Node).processSyncRequest`, as the `(resp, respErr)` pair handed to
`rpc.Respond`.  The core-call outcomes are parameters: `over` is
`core.OverSyncLimit(cmd.Known, conf.SyncLimit)`; `diffRes` is the Go pair
returned by `core.EventDiff(cmd.Known)` (partial slice plus optional error);
`wireRes` is the pair returned by `core.ToWire(eventDiff)`; `selfKnown` is
`core.KnownEvents()`.  Transcription: on sync-limit only the flag is set; in
the other branch a `EventDiff` error is recorded in `respErr`, `ToWire` is
still called, its error overwrites `respErr` and suppresses the `Events`
assignment; the responder's known map and id are attached in all cases and
the handler always responds. -/
def processSyncRequest (selfId : Nat) (over : Bool)
    (diffRes : List HgEvent × Option Err) (wireRes : List WireEvent × Option Err)
    (selfKnown : KnownMap) : SyncResponse × Option Err :=
  let resp0 : SyncResponse := { fromID := selfId, syncLimit := false, events := [], known := [] }
  if over then
    ({ resp0 with syncLimit := true, known := selfKnown }, none)
  else
    let respErr1 : Option Err := diffRes.2
    let eventsAndErr :=
      match wireRes.2 with
      | some e => (([] : List WireEvent), some e)
      | none => (wireRes.1, respErr1)
    ({ resp0 with events := eventsAndErr.1, known := selfKnown }, eventsAndErr.2)

/-! ## The other RPC handlers and `processRPC` (`commands.go`) -/

/-- An opaque `hashgraph.Block`. -/
abbrev Block := Nat

/-- An opaque `hashgraph.Frame`. -/
abbrev Frame := Nat

/-- The first argument of an `rpc.Respond(resp, err)` call: which response
struct was passed, or Go `nil` for the unknown-command reply. -/
inductive RespBody where
  | syncResp (r : SyncResponse)
  | joinResp (fromID : Nat) (peer : Peer)
  | eagerResp (fromID : Nat) (success : Bool)
  | ffResp (fromID : Nat) (block : Block) (frame : Frame) (snapshot : List Nat)
  | nilBody
deriving DecidableEq, Repr

/-- An `rpc.Respond` invocation: body and error argument. -/
abbrev RespondCall := RespBody × Option Err

/-- `(*Node).processEagerSyncRequest`, as the list of `Respond` calls it makes.
`syncErr` is the outcome of `n.sync(cmd.Events)` run under the core lock. -/
def processEagerSyncRequest (selfId : Nat) (syncErr : Option Err) : List RespondCall :=
  let success := syncErr.isNone
  [(RespBody.eagerResp selfId success, syncErr)]

/-- `(*Node).processJoinRequest`, as the list of `Respond` calls it makes.
`selfPeer` is `*core.peers.ByID[n.id]`; `alone` is `core.peers.Len() == 1`;
`selfEventErr` is the first error of the up-to-10 `AddSelfEvent` calls (run
only when alone; an error breaks the loop); `runConsErr` is the outcome of
`core.RunConsensus()`, which overwrites `respErr` when it fails. -/
def processJoinRequest (selfId : Nat) (selfPeer : Peer) (alone : Bool)
    (selfEventErr : Option Err) (runConsErr : Option Err) : List RespondCall :=
  let respErr1 : Option Err := if alone then selfEventErr else none
  let respErr :=
    match runConsErr with
    | some e => some e
    | none => respErr1
  [(RespBody.joinResp selfId selfPeer, respErr)]

/-- Modelled from the spec: `Core.GetAnchorBlockWithFrame` is not among the
sources; per the spec the handler "obtain[s] `(block, frame) =
GetAnchorBlockWithFrame()`" and "errors are surfaced", so its outcome is a
block, a frame and an optional error. -/
structure AnchorResult where
  block : Block
  frame : Frame
  err : Option Err
deriving DecidableEq, Repr

/-- `(*Node).processFastForwardRequest`, as the list of `Respond` calls it
makes.  `anchor` is the outcome of `core.GetAnchorBlockWithFrame()` (under
the core lock); `snapRes` is the Go pair returned by
`proxy.GetSnapshot(block.Index())` (outside the lock).  An anchor error is
recorded in `respErr`; a snapshot error overwrites it; the handler responds
with whatever block, frame and snapshot it has, plus the error. -/
def processFastForwardRequest (selfId : Nat) (anchor : AnchorResult)
    (snapRes : List Nat × Option Err) : List RespondCall :=
  let respErr1 := anchor.err
  let respErr :=
    match snapRes.2 with
    | some e => some e
    | none => respErr1
  [(RespBody.ffResp selfId anchor.block anchor.frame snapRes.1, respErr)]

/-- The `rpc.Command` discriminated by `processRPC`'s type switch. -/
inductive RPCCommand where
  | syncReq (fromID : Nat) (known : KnownMap)
  | joinReq (fromID : Nat) (peer : Peer)
  | eagerSyncReq (fromID : Nat) (events : List WireEvent)
  | fastForwardReq (fromID : Nat)
  | unknown
deriving DecidableEq, Repr

/-- The outcomes of every core / proxy call an RPC handler may make, bundled
so that `processRPC` can be a single function of the inbound command. -/
structure HandlerOracle where
  over : Bool
  diffRes : List HgEvent × Option Err
  wireRes : List WireEvent × Option Err
  selfKnown : KnownMap
  syncErr : Option Err
  selfPeer : Peer
  alone : Bool
  selfEventErr : Option Err
  runConsErr : Option Err
  anchor : AnchorResult
  snapRes : List Nat × Option Err
deriving Repr

/-- `(*Node).processRPC`: dispatch on the command type; the four known
commands go to their handlers, anything else is answered directly with a nil
body and the error `"unexpected command"`. Returns every `Respond` call made
while processing the RPC. -/
def processRPC (selfId : Nat) (o : HandlerOracle) (cmd : RPCCommand) : List RespondCall :=
  match cmd with
  | RPCCommand.syncReq _ _ =>
      let r := processSyncRequest selfId o.over o.diffRes o.wireRes o.selfKnown
      [(RespBody.syncResp r.1, r.2)]
  | RPCCommand.joinReq _ _ =>
      processJoinRequest selfId o.selfPeer o.alone o.selfEventErr o.runConsErr
  | RPCCommand.eagerSyncReq _ _ =>
      processEagerSyncRequest selfId o.syncErr
  | RPCCommand.fastForwardReq _ =>
      processFastForwardRequest selfId o.anchor o.snapRes
  | RPCCommand.unknown =>
      [(RespBody.nilBody, some "unexpected command")]

/-! ## Core-lock discipline (`commands.go`) -/

/-- The core operations (`n.core...`) the node routines invoke, named after
the Go calls and field accesses. -/
inductive CoreTag where
  | overSyncLimitOp
  | eventDiffOp
  | toWireOp
  | knownEventsOp
  | peersByID
  | peersLen
  | addInternalTransactionsOp
  | addTransactionsOp
  | addSelfEventOp
  | runConsensusOp
  | anchorBlockField
  | storeLastBlockIndexOp
  | syncOp
  | getAnchorBlockWithFrameOp
  | pendingLoadedEventsField
  | transactionPoolField
  | blockSignaturePoolField
deriving DecidableEq, Repr

/-- Micro-steps of a node routine, recording the `coreLock` operations, the
accesses to the consensus core (`n.core...`), and the remaining operations. -/
inductive LockStep where
  | lock
  | unlock
  | coreAccess (tag : CoreTag)
  | plain (tag : String)
deriving DecidableEq, Repr

/-- `true` iff every `coreAccess` of the step list happens while the lock
depth is positive; `d` is the current depth. -/
def disciplined : Nat → List LockStep → Bool
  | _, [] => true
  | d, LockStep.lock :: rest => disciplined (d + 1) rest
  | d, LockStep.unlock :: rest => disciplined (d - 1) rest
  | d, LockStep.coreAccess _ :: rest => decide (0 < d) && disciplined d rest
  | d, LockStep.plain _ :: rest => disciplined d rest

/-- Like `disciplined`, but accesses whose tag is listed in `ex` are exempt
from the lock requirement. -/
def disciplinedExcept (ex : List CoreTag) : Nat → List LockStep → Bool
  | _, [] => true
  | d, LockStep.lock :: rest => disciplinedExcept ex (d + 1) rest
  | d, LockStep.unlock :: rest => disciplinedExcept ex (d - 1) rest
  | d, LockStep.coreAccess t :: rest =>
      (decide (t ∈ ex) || decide (0 < d)) && disciplinedExcept ex d rest
  | d, LockStep.plain _ :: rest => disciplinedExcept ex d rest

/-- `processSyncRequest`, as its sequence of lock operations and core
accesses; `over` selects the sync-limit branch.  Note `core.ToWire(eventDiff)`
is invoked after `coreLock.Unlock()` (line 333 of `commands.go`). -/
def syncHandlerSteps (over : Bool) : List LockStep :=
  [LockStep.lock, LockStep.coreAccess CoreTag.overSyncLimitOp, LockStep.unlock]
    ++ (if over then []
        else [LockStep.lock, LockStep.coreAccess CoreTag.eventDiffOp, LockStep.unlock,
              LockStep.coreAccess CoreTag.toWireOp])
    ++ [LockStep.lock, LockStep.coreAccess CoreTag.knownEventsOp, LockStep.unlock,
        LockStep.plain "Respond"]

/-- `processJoinRequest`, as its lock operations and core accesses: the
handler's own `coreLock.Lock()` is commented out in the source, so only the
nested `addInternalTransaction` acquires the lock; `alone` is
`core.peers.Len() == 1` and `k` the number of `AddSelfEvent` iterations
actually run (up to 10; an error breaks the loop early). -/
def joinHandlerSteps (alone : Bool) (k : Nat) : List LockStep :=
  [LockStep.coreAccess CoreTag.peersByID,
   LockStep.lock, LockStep.coreAccess CoreTag.addInternalTransactionsOp, LockStep.unlock,
   LockStep.coreAccess CoreTag.peersLen]
    ++ (if alone then List.replicate k (LockStep.coreAccess CoreTag.addSelfEventOp) else [])
    ++ [LockStep.coreAccess CoreTag.runConsensusOp,
        LockStep.coreAccess CoreTag.anchorBlockField,
        LockStep.coreAccess CoreTag.storeLastBlockIndexOp,
        LockStep.plain "Respond"]

/-- `processEagerSyncRequest`: `n.sync` (= `core.Sync` + `core.RunConsensus`)
runs between `Lock` and `Unlock`. -/
def eagerSyncHandlerSteps : List LockStep :=
  [LockStep.lock, LockStep.coreAccess CoreTag.syncOp,
   LockStep.coreAccess CoreTag.runConsensusOp,
   LockStep.unlock, LockStep.plain "Respond"]

/-- `processFastForwardRequest`: the core call is under the lock, the
application snapshot fetch is outside it. -/
def fastForwardHandlerSteps : List LockStep :=
  [LockStep.lock, LockStep.coreAccess CoreTag.getAnchorBlockWithFrameOp, LockStep.unlock,
   LockStep.plain "GetSnapshot", LockStep.plain "Respond"]

/-- `resetTimer`: the whole body runs between `Lock` and a deferred `Unlock`;
the core fields are read only when the timer is not armed. -/
def resetTimerSteps (timerSet : Bool) : List LockStep :=
  [LockStep.lock]
    ++ (if timerSet then []
        else [LockStep.coreAccess CoreTag.pendingLoadedEventsField,
              LockStep.coreAccess CoreTag.transactionPoolField,
              LockStep.coreAccess CoreTag.blockSignaturePoolField,
              LockStep.plain "resetCh"])
    ++ [LockStep.unlock]

/-- `addTransaction`. -/
def addTransactionSteps : List LockStep :=
  [LockStep.lock, LockStep.coreAccess CoreTag.addTransactionsOp, LockStep.unlock]

/-- `addInternalTransaction`. -/
def addInternalTransactionSteps : List LockStep :=
  [LockStep.lock, LockStep.coreAccess CoreTag.addInternalTransactionsOp, LockStep.unlock]

/-! ## `Shutdown` (`commands.go`) -/

/-- The externally visible operations `(*Node).Shutdown` performs, in the
order the source lists them. -/
inductive ShutAction where
  | setStateShutdown
  | closeShutdownCh
  | waitRoutines
  | stopControlTimer
  | closeTransport
  | closeStore
deriving DecidableEq, Repr

/-- The node fields `Shutdown` consults and changes. -/
structure ShutNode where
  state : NState
  shutdownChClosed : Bool
deriving DecidableEq, Repr

/-- `(*Node).Shutdown`: guarded by `getState() != Shutdown`; when it acts it
sets the state, closes `shutdownCh`, waits on the wait-group, stops the
control timer, closes the transport and closes the store, in that order. -/
def NodeShutdown (n : ShutNode) : ShutNode × List ShutAction :=
  if n.state ≠ NState.ShutdownSt then
    ({ state := NState.ShutdownSt, shutdownChClosed := true },
     [ShutAction.setStateShutdown, ShutAction.closeShutdownCh, ShutAction.waitRoutines,
      ShutAction.stopControlTimer, ShutAction.closeTransport, ShutAction.closeStore])
  else
    (n, [])

/-! ## Interleaving of the node routines (for state monotonicity)

The node state is a shared atomic cell.  The routines that write it are the
lifecycle loop (`Run`), `connect`, `fastForward`, a spawned `gossip` task and
`Shutdown`.  We model an execution as a pool of task programs (lists of
atomic steps) racing over the shared state: a step of any task may fire, and
only `setState` changes the state cell. -/

/-- An atomic step of a node routine, as far as the shared state cell is
concerned. -/
inductive TaskStep where
  | setState (s : NState)
  | sendReturn
  | closeShutdownCh
  | waitRoutines
  | stopControlTimer
  | closeTransport
  | closeStore
  | pullStep
  | pushStep
deriving DecidableEq, Repr

/-- A system configuration: the shared state cell and the remaining programs
of the running tasks. -/
structure Sys where
  state : NState
  tasks : List (List TaskStep)
deriving DecidableEq, Repr

/-- Effect of one atomic step on the state cell. -/
def stepState (st : NState) : TaskStep → NState
  | TaskStep.setState s => s
  | _ => st

/-- Interleaving semantics: any task with a remaining step may fire it. -/
inductive SysStep : Sys → Sys → Prop where
  | mk (st : NState) (pre post : List (List TaskStep)) (a : TaskStep) (rest : List TaskStep) :
      SysStep ⟨st, pre ++ (a :: rest) :: post⟩ ⟨stepState st a, pre ++ rest :: post⟩

/-- The program of a `gossip` task whose pull reports sync-limit,
transcribed from `gossip` (matching the `PullReport.limit` case of the
`gossip` trace function). -/
def gossipLimitTask : List TaskStep :=
  [TaskStep.pullStep, TaskStep.setState NState.CatchingUp, TaskStep.sendReturn]

/-- The program of a `Shutdown()` call, transcribed from `(*Node).Shutdown`
(matching the acting branch of `NodeShutdown`). -/
def shutdownTask : List TaskStep :=
  [TaskStep.setState NState.ShutdownSt, TaskStep.closeShutdownCh, TaskStep.waitRoutines,
   TaskStep.stopControlTimer, TaskStep.closeTransport, TaskStep.closeStore]

/-- `true` iff the task program never writes a state other than Shutdown. -/
def benignTask (t : List TaskStep) : Bool :=
  t.all (fun a =>
    match a with
    | TaskStep.setState s => decide (s = NState.ShutdownSt)
    | _ => true)

/-! ## The start of `fastForward` (`commands.go`) -/

/-- How `(*Node).fastForward` proceeds right after `peer :=
core.peerSelector.Next()`: the very next operation is
`requestFastForward(peer.NetAddr)`, a field read through the returned
pointer with no nil check, so a `nil` selector result is a fault (nil
pointer dereference), not an error return. -/
inductive FFStart where
  | fault
  | request (netAddr : String)
deriving DecidableEq, Repr

/-- The dereference `peer.NetAddr` performed by `fastForward` on the
selector's result. -/
def fastForwardStart (sel : Option Peer) : FFStart :=
  match sel with
  | none => FFStart.fault
  | some p => FFStart.request p.netAddr

/-- A node in Babbling with a gossip task that has completed its pull (which
reported sync-limit) and a concurrent `Shutdown()` call that has not yet run. -/
def sysRace0 : Sys :=
  { state := NState.Babbling, tasks := [gossipLimitTask, shutdownTask] }

/-- After the gossip task's pull step. -/
def sysRace1 : Sys :=
  { state := NState.Babbling,
    tasks := [[TaskStep.setState NState.CatchingUp, TaskStep.sendReturn], shutdownTask] }

/-- After `Shutdown()` sets the state cell to Shutdown. -/
def sysRace2 : Sys :=
  { state := NState.ShutdownSt,
    tasks := [[TaskStep.setState NState.CatchingUp, TaskStep.sendReturn],
              shutdownTask.tail] }

/-- After the in-flight gossip task fires `setState(CatchingUp)`. -/
def sysRace3 : Sys :=
  { state := NState.CatchingUp,
    tasks := [[TaskStep.sendReturn], shutdownTask.tail] }

/-! # Theorems -/

/-- C4: `resetTimer()` sends no interval when the control timer is already
armed; otherwise it sends exactly one interval, which is one second when
`PendingLoadedEvents == 0` and the transaction pool and block-signature pool
are empty, and the configured heartbeat timeout otherwise. -/
theorem resetTimer_interval_policy (hb pending : Nat)
    (txPool : List (List Nat)) (sigPool : List Nat) :
    resetTimerInterval true hb pending txPool sigPool = none ∧
    (resetTimerInterval false hb pending txPool sigPool).isSome = true ∧
    (pending = 0 ∧ txPool = [] ∧ sigPool = [] →
      resetTimerInterval false hb pending txPool sigPool = some oneSecondNs) ∧
    (¬(pending = 0 ∧ txPool = [] ∧ sigPool = []) →
      resetTimerInterval false hb pending txPool sigPool = some hb) := by
  refine ⟨rfl, ?_, ?_, ?_⟩
  · by_cases h : pending = 0 ∧ txPool.length = 0 ∧ sigPool.length = 0 <;>
      simp [resetTimerInterval, h]
  · rintro ⟨h1, h2, h3⟩
    simp [resetTimerInterval, h1, h2, h3]
  · intro h
    have h' : ¬(pending = 0 ∧ txPool.length = 0 ∧ sigPool.length = 0) := by
      simpa [List.length_eq_zero] using h
    unfold resetTimerInterval
    rw [if_neg (by decide)]
    simp only [if_neg h']

/-- C4 witness: concrete instances of each branch of the policy. -/
theorem resetTimer_interval_policy_witness :
    resetTimerInterval true 5000 0 [] [] = none ∧
    resetTimerInterval false 5000 0 [] [] = some oneSecondNs ∧
    resetTimerInterval false 5000 3 [] [] = some 5000 :=
  ⟨(resetTimer_interval_policy 5000 0 [] []).1,
   (resetTimer_interval_policy 5000 0 [] []).2.2.1 ⟨rfl, rfl, rfl⟩,
   (resetTimer_interval_policy 5000 3 [] []).2.2.2 (by simp)⟩

/-- C8 counterexample: with gossip enabled and the selector returning no
peer, the tick branch of `babble` hits `continue` and `resetTimer()` is not
invoked, contradicting the claim that it runs on every tick. -/
theorem babble_tick_skips_resetTimer :
    babbleTick true none = [] ∧ BabbleAction.resetTimer ∉ babbleTick true none := by
  refine ⟨rfl, ?_⟩
  simp [babbleTick]

/-- C8 amended: on a heartbeat tick, `resetTimer()` is invoked (exactly once,
as the last action before the loop waits again) whenever gossip is disabled
or the selector returned a peer; when gossip is enabled and no peer is
selectable the branch `continue`s without calling `resetTimer()`. -/
theorem babble_tick_resetTimer_policy (gossip : Bool) (sel : Option Peer) :
    (gossip = false ∨ sel.isSome = true →
      (babbleTick gossip sel).count BabbleAction.resetTimer = 1 ∧
      (babbleTick gossip sel).getLast? = some BabbleAction.resetTimer) ∧
    (gossip = true ∧ sel = none → babbleTick gossip sel = []) := by
  cases gossip <;> cases sel <;>
    simp [babbleTick, List.count_cons, List.getLast?]

/-- C8 witness: the amended statement applied at concrete inputs covering
both gossip disabled and a selected peer. -/
theorem babble_tick_resetTimer_policy_witness :
    ((babbleTick false none).count BabbleAction.resetTimer = 1 ∧
      (babbleTick false none).getLast? = some BabbleAction.resetTimer) ∧
    ((babbleTick true (some ⟨2, "addr", "pk"⟩)).count BabbleAction.resetTimer = 1 ∧
      (babbleTick true (some ⟨2, "addr", "pk"⟩)).getLast? = some BabbleAction.resetTimer) ∧
    babbleTick true none = [] :=
  ⟨(babble_tick_resetTimer_policy false none).1 (Or.inl rfl),
   (babble_tick_resetTimer_policy true (some ⟨2, "addr", "pk"⟩)).1 (Or.inr rfl),
   (babble_tick_resetTimer_policy true none).2 ⟨rfl, rfl⟩⟩

/-- C2: the SyncRequest handler always replies with the responder's id and
`KnownEvents()` map attached; on sync-limit it replies `SyncLimit = true`
with no events and no error; otherwise `SyncLimit = false` with
`Events = ToWire(EventDiff(K))` and, when `EventDiff` or `ToWire` fails, it
still replies, with the partial body and the error. -/
theorem processSyncRequest_reply (selfId : Nat) (over : Bool)
    (diffRes : List HgEvent × Option Err) (wireRes : List WireEvent × Option Err)
    (selfKnown : KnownMap) :
    (processSyncRequest selfId over diffRes wireRes selfKnown).1.fromID = selfId ∧
    (processSyncRequest selfId over diffRes wireRes selfKnown).1.known = selfKnown ∧
    (over = true →
      (processSyncRequest selfId over diffRes wireRes selfKnown).1.syncLimit = true ∧
      (processSyncRequest selfId over diffRes wireRes selfKnown).1.events = [] ∧
      (processSyncRequest selfId over diffRes wireRes selfKnown).2 = none) ∧
    (over = false →
      (processSyncRequest selfId over diffRes wireRes selfKnown).1.syncLimit = false ∧
      (wireRes.2 = none →
        (processSyncRequest selfId over diffRes wireRes selfKnown).1.events = wireRes.1 ∧
        (processSyncRequest selfId over diffRes wireRes selfKnown).2 = diffRes.2) ∧
      (∀ e, wireRes.2 = some e →
        (processSyncRequest selfId over diffRes wireRes selfKnown).1.events = [] ∧
        (processSyncRequest selfId over diffRes wireRes selfKnown).2 = some e)) := by
  obtain ⟨diff, derr⟩ := diffRes
  obtain ⟨wire, werr⟩ := wireRes
  cases over <;> cases werr <;> simp [processSyncRequest]

/-- C2 witness: the handler evaluated on concrete sync-limit and
diff-success inputs. -/
theorem processSyncRequest_reply_witness :
    (processSyncRequest 7 true ([1], none) ([2], none) [(1, 4)]).1.syncLimit = true ∧
    (processSyncRequest 7 true ([1], none) ([2], none) [(1, 4)]).1.events = [] ∧
    (processSyncRequest 7 false ([1], none) ([2], none) [(1, 4)]).1.events = [2] ∧
    (processSyncRequest 7 false ([1], none) ([2], none) [(1, 4)]).2 = none ∧
    (processSyncRequest 7 false ([1], some "diff fail") ([], some "wire fail") [(1, 4)]).2 =
      some "wire fail" :=
  ⟨((processSyncRequest_reply 7 true ([1], none) ([2], none) [(1, 4)]).2.2.1 rfl).1,
   ((processSyncRequest_reply 7 true ([1], none) ([2], none) [(1, 4)]).2.2.1 rfl).2.1,
   (((processSyncRequest_reply 7 false ([1], none) ([2], none) [(1, 4)]).2.2.2 rfl).2.1 rfl).1,
   (((processSyncRequest_reply 7 false ([1], none) ([2], none) [(1, 4)]).2.2.2 rfl).2.1 rfl).2,
   (((processSyncRequest_reply 7 false ([1], some "diff fail") ([], some "wire fail")
       [(1, 4)]).2.2.2 rfl).2.2 "wire fail" rfl).2⟩

/-- C1: in `gossip(peer, returnCh)`, a sync-limited pull sets the state to
CatchingUp and writes to `returnCh` with no push and no `UpdateLast`; a push
runs only after a pull that returned without error and without sync-limit
(and `pull` reports `ok` exactly when `requestSync` succeeded without the
limit flag and `sync` succeeded); and `UpdateLast(peer.ID)` runs, between
`selectorLock.Lock()` and `selectorLock.Unlock()`, exactly when push
returned successfully. -/
theorem gossip_pull_push_updateLast (peer : Peer) (pr : PullReport) (pushErr : Option Err) :
    (pr = PullReport.limit →
      (gossip peer pr pushErr).1 =
        [GAction.pullCall, GAction.setState NState.CatchingUp, GAction.sendReturn] ∧
      GAction.pushCall ∉ (gossip peer pr pushErr).1 ∧
      (∀ i, GAction.updateLast i ∉ (gossip peer pr pushErr).1)) ∧
    (GAction.pushCall ∈ (gossip peer pr pushErr).1 → ∃ k, pr = PullReport.ok k) ∧
    (∀ reqRes syncErr k, pull reqRes syncErr = PullReport.ok k →
      reqRes = Except.ok (false, k) ∧ syncErr = none) ∧
    (GAction.updateLast peer.id ∈ (gossip peer pr pushErr).1 ↔
      (∃ k, pr = PullReport.ok k) ∧ pushErr = none) ∧
    ((∃ k, pr = PullReport.ok k) ∧ pushErr = none →
      (gossip peer pr pushErr).1 =
        [GAction.pullCall, GAction.pushCall, GAction.selectorLock,
         GAction.updateLast peer.id, GAction.selectorUnlock, GAction.logStats]) := by
  refine ⟨?_, ?_, ?_, ?_, ?_⟩
  · rintro rfl
    cases pushErr <;> simp [gossip]
  · cases pr <;> cases pushErr <;> simp [gossip]
  · rintro reqRes syncErr k h
    cases reqRes with
    | error e => simp [pull] at h
    | ok pr' =>
      obtain ⟨limitFlag, remoteKnown⟩ := pr'
      cases limitFlag
      · cases syncErr <;> simp_all [pull]
      · simp [pull] at h
  · cases pr <;> cases pushErr <;> simp [gossip]
  · rintro ⟨⟨k, rfl⟩, rfl⟩
    simp [gossip]

/-- C1 witness: the theorem applied at a concrete peer for a sync-limited
pull and for a successful pull + push. -/
theorem gossip_pull_push_updateLast_witness :
    (gossip ⟨5, "a", "pk"⟩ PullReport.limit none).1 =
      [GAction.pullCall, GAction.setState NState.CatchingUp, GAction.sendReturn] ∧
    (GAction.updateLast 5 ∈ (gossip ⟨5, "a", "pk"⟩ (PullReport.ok [(1, 2)]) none).1) ∧
    (gossip ⟨5, "a", "pk"⟩ (PullReport.ok [(1, 2)]) none).1 =
      [GAction.pullCall, GAction.pushCall, GAction.selectorLock,
       GAction.updateLast 5, GAction.selectorUnlock, GAction.logStats] :=
  ⟨((gossip_pull_push_updateLast ⟨5, "a", "pk"⟩ PullReport.limit none).1 rfl).1,
   ((gossip_pull_push_updateLast ⟨5, "a", "pk"⟩ (PullReport.ok [(1, 2)]) none).2.2.2.1).mpr
     ⟨⟨[(1, 2)], rfl⟩, rfl⟩,
   (gossip_pull_push_updateLast ⟨5, "a", "pk"⟩ (PullReport.ok [(1, 2)]) none).2.2.2.2
     ⟨⟨[(1, 2)], rfl⟩, rfl⟩⟩

/-- C7: for every inbound RPC, `Respond` is called exactly once on every
path: unknown commands get a reply with a nil body and an error, and each of
the four handlers replies even when an internal step fails — in particular
the FastForwardRequest handler replies with an error when
`GetAnchorBlockWithFrame` or `GetSnapshot` fails. -/
theorem processRPC_responds_once (selfId : Nat) (o : HandlerOracle) (cmd : RPCCommand) :
    (processRPC selfId o cmd).length = 1 ∧
    (cmd = RPCCommand.unknown →
      processRPC selfId o cmd = [(RespBody.nilBody, some "unexpected command")]) ∧
    (∀ fid, cmd = RPCCommand.fastForwardReq fid →
      o.anchor.err ≠ none ∨ o.snapRes.2 ≠ none →
      ∃ b, processRPC selfId o cmd = [b] ∧ b.2 ≠ none) := by
  refine ⟨?_, ?_, ?_⟩
  · cases cmd <;>
      simp [processRPC, processEagerSyncRequest, processJoinRequest,
            processFastForwardRequest]
  · rintro rfl
    rfl
  · rintro fid rfl herr
    refine ⟨(RespBody.ffResp selfId o.anchor.block o.anchor.frame o.snapRes.1,
             match o.snapRes.2 with
             | some e => some e
             | none => o.anchor.err), rfl, ?_⟩
    rcases hs : o.snapRes.2 with _ | e
    · rcases herr with ha | hsn
      · simpa [hs] using ha
      · exact absurd hs hsn
    · simp [hs]

/-- C7 witness: the theorem applied to an unknown command and to a
FastForwardRequest whose anchor fetch failed. -/
theorem processRPC_responds_once_witness :
    (processRPC 3
        { over := false, diffRes := ([], none), wireRes := ([], none), selfKnown := [],
          syncErr := none, selfPeer := ⟨3, "a", "pk"⟩, alone := false,
          selfEventErr := none, runConsErr := none,
          anchor := { block := 0, frame := 0, err := some "no anchor" },
          snapRes := ([], none) }
        RPCCommand.unknown).length = 1 ∧
    (processRPC 3
        { over := false, diffRes := ([], none), wireRes := ([], none), selfKnown := [],
          syncErr := none, selfPeer := ⟨3, "a", "pk"⟩, alone := false,
          selfEventErr := none, runConsErr := none,
          anchor := { block := 0, frame := 0, err := some "no anchor" },
          snapRes := ([], none) }
        RPCCommand.unknown) = [(RespBody.nilBody, some "unexpected command")] ∧
    (∃ b, (processRPC 3
        { over := false, diffRes := ([], none), wireRes := ([], none), selfKnown := [],
          syncErr := none, selfPeer := ⟨3, "a", "pk"⟩, alone := false,
          selfEventErr := none, runConsErr := none,
          anchor := { block := 0, frame := 0, err := some "no anchor" },
          snapRes := ([], none) }
        (RPCCommand.fastForwardReq 9)) = [b] ∧ b.2 ≠ none) :=
  ⟨(processRPC_responds_once 3 _ RPCCommand.unknown).1,
   (processRPC_responds_once 3 _ RPCCommand.unknown).2.1 rfl,
   (processRPC_responds_once 3 _ (RPCCommand.fastForwardReq 9)).2.2 9 rfl
     (Or.inl (by simp))⟩

/-- C10: `fastForward` dereferences the selector's result without a nil
check; when the peer set minus self is empty, `Next()` returns `none` and
the very next operation faults instead of returning an error. -/
theorem fastForward_faults_without_peers (ps : RandomPeerSelector) (r : Nat)
    (h : ExcludePeer ps.peers ps.selfID = []) :
    RandomPeerSelector.Next ps r = none ∧
    fastForwardStart (RandomPeerSelector.Next ps r) = FFStart.fault := by
  have hnext : RandomPeerSelector.Next ps r = none := by
    simp [RandomPeerSelector.Next, h]
  exact ⟨hnext, by rw [hnext]; rfl⟩

/-- C10 witness: a selector whose peer set holds only the node itself. -/
theorem fastForward_faults_without_peers_witness :
    RandomPeerSelector.Next ⟨[⟨1, "self", "pk"⟩], 1, 0⟩ 0 = none ∧
    fastForwardStart (RandomPeerSelector.Next ⟨[⟨1, "self", "pk"⟩], 1, 0⟩ 0) =
      FFStart.fault :=
  fastForward_faults_without_peers ⟨[⟨1, "self", "pk"⟩], 1, 0⟩ 0 (by decide)

/-- C6: `Shutdown()` acts only when the state is not yet Shutdown, and then
performs, in order: set state to Shutdown, close the shutdown channel, wait
on the wait-group, stop the control timer, close the transport, close the
store; a second call performs no action and the shutdown channel is closed
at most once across both calls. -/
theorem nodeShutdown_idempotent_ordered (n : ShutNode) :
    (n.state ≠ NState.ShutdownSt →
      (NodeShutdown n).2 =
        [ShutAction.setStateShutdown, ShutAction.closeShutdownCh, ShutAction.waitRoutines,
         ShutAction.stopControlTimer, ShutAction.closeTransport, ShutAction.closeStore]) ∧
    (n.state = NState.ShutdownSt → (NodeShutdown n).2 = []) ∧
    (NodeShutdown n).1.state = NState.ShutdownSt ∧
    (NodeShutdown (NodeShutdown n).1).2 = [] ∧
    ((NodeShutdown n).2 ++ (NodeShutdown (NodeShutdown n).1).2).count
      ShutAction.closeShutdownCh ≤ 1 := by
  by_cases h : n.state = NState.ShutdownSt <;>
    simp [NodeShutdown, h, List.count_cons]

/-- C6 witness: a node in Babbling: the first call acts in order, the second
is a no-op. -/
theorem nodeShutdown_idempotent_ordered_witness :
    (NodeShutdown ⟨NState.Babbling, false⟩).2 =
      [ShutAction.setStateShutdown, ShutAction.closeShutdownCh, ShutAction.waitRoutines,
       ShutAction.stopControlTimer, ShutAction.closeTransport, ShutAction.closeStore] ∧
    (NodeShutdown (NodeShutdown ⟨NState.Babbling, false⟩).1).2 = [] ∧
    ((NodeShutdown ⟨NState.Babbling, false⟩).2 ++
        (NodeShutdown (NodeShutdown ⟨NState.Babbling, false⟩).1).2).count
      ShutAction.closeShutdownCh ≤ 1 :=
  ⟨(nodeShutdown_idempotent_ordered ⟨NState.Babbling, false⟩).1 (by decide),
   (nodeShutdown_idempotent_ordered ⟨NState.Babbling, false⟩).2.2.2.1,
   (nodeShutdown_idempotent_ordered ⟨NState.Babbling, false⟩).2.2.2.2⟩

/-- Helper for C9: exempt core accesses pass through `disciplinedExcept`
unchanged, in particular a block of `AddSelfEvent` iterations. -/
theorem disciplinedExcept_replicate (ex : List CoreTag) (t : CoreTag) (ht : t ∈ ex)
    (d k : Nat) (rest : List LockStep) :
    disciplinedExcept ex d (List.replicate k (LockStep.coreAccess t) ++ rest) =
      disciplinedExcept ex d rest := by
  induction k with
  | zero => rfl
  | succ m ih => simp [List.replicate_succ, disciplinedExcept, ht, ih]

/-- C9 counterexample: the JoinRequest handler (whose own `coreLock.Lock()`
is commented out) reads `core.peers.ByID` and runs `AddSelfEvent`,
`RunConsensus` and the `AnchorBlock` update without holding `coreLock`, and
even the SyncRequest handler calls `core.ToWire` after releasing the lock —
so not every core access occurs while `coreLock` is held. -/
theorem lock_discipline_counterexample :
    disciplined 0 (joinHandlerSteps true 10) = false ∧
    disciplined 0 (joinHandlerSteps false 0) = false ∧
    disciplined 0 (syncHandlerSteps false) = false := by
  refine ⟨?_, ?_, ?_⟩ <;> rfl

/-- C9 amended: the EagerSyncRequest and FastForwardRequest handlers,
`resetTimer`, `addTransaction` and `addInternalTransaction` perform every
core access under `coreLock`; the SyncRequest handler does too except for
its `core.ToWire` call, made after unlocking; and the JoinRequest handler
acquires the lock only inside `addInternalTransaction`, leaving its
`peers.ByID` read, `peers.Len` read, `AddSelfEvent` loop, `RunConsensus`
and `AnchorBlock` update outside the lock. -/
theorem lock_discipline_amended (over alone timerSet : Bool) (k : Nat) :
    disciplined 0 eagerSyncHandlerSteps = true ∧
    disciplined 0 fastForwardHandlerSteps = true ∧
    disciplined 0 (resetTimerSteps timerSet) = true ∧
    disciplined 0 addTransactionSteps = true ∧
    disciplined 0 addInternalTransactionSteps = true ∧
    disciplinedExcept [CoreTag.toWireOp] 0 (syncHandlerSteps over) = true ∧
    disciplinedExcept
      [CoreTag.peersByID, CoreTag.peersLen, CoreTag.addSelfEventOp,
       CoreTag.runConsensusOp, CoreTag.anchorBlockField,
       CoreTag.storeLastBlockIndexOp] 0 (joinHandlerSteps alone k) = true := by
  refine ⟨rfl, rfl, ?_, rfl, rfl, ?_, ?_⟩
  · cases timerSet <;> rfl
  · cases over <;> rfl
  · cases alone
    · rfl
    · show disciplinedExcept _ 0
        (LockStep.coreAccess CoreTag.peersByID ::
          (LockStep.lock :: LockStep.coreAccess CoreTag.addInternalTransactionsOp ::
            LockStep.unlock :: LockStep.coreAccess CoreTag.peersLen ::
              (List.replicate k (LockStep.coreAccess CoreTag.addSelfEventOp) ++ _))) = true
      show disciplinedExcept _ 0
        (List.replicate k (LockStep.coreAccess CoreTag.addSelfEventOp) ++ _) = true
      rw [disciplinedExcept_replicate _ _ (by decide)]
      rfl

/-- Helper for C5: one interleaving step out of a Shutdown-stated system
whose remaining tasks never write a non-Shutdown state keeps the state at
Shutdown and the tasks benign. -/
theorem sysStep_preserves_shutdown {x y : Sys}
    (hx : x.state = NState.ShutdownSt ∧ ∀ t ∈ x.tasks, benignTask t = true)
    (h : SysStep x y) :
    y.state = NState.ShutdownSt ∧ ∀ t ∈ y.tasks, benignTask t = true := by
  obtain ⟨hst, hben⟩ := hx
  cases h with
  | mk st pre post a rest =>
    have hmem : (a :: rest) ∈ pre ++ (a :: rest) :: post :=
      List.mem_append_right _ (List.mem_cons_self _ _)
    have hbenar : benignTask (a :: rest) = true := hben _ hmem
    have hst' : st = NState.ShutdownSt := hst
    have hbensplit : ((fun s : TaskStep =>
        match s with
        | TaskStep.setState v => decide (v = NState.ShutdownSt)
        | _ => true) a = true) ∧ benignTask rest = true := by
      unfold benignTask at hbenar
      rw [List.all_cons, Bool.and_eq_true] at hbenar
      exact ⟨hbenar.1, hbenar.2⟩
    refine ⟨?_, ?_⟩
    · cases a with
      | setState s => exact of_decide_eq_true hbensplit.1
      | sendReturn => exact hst'
      | closeShutdownCh => exact hst'
      | waitRoutines => exact hst'
      | stopControlTimer => exact hst'
      | closeTransport => exact hst'
      | closeStore => exact hst'
      | pullStep => exact hst'
      | pushStep => exact hst'
    · intro t ht
      rcases List.mem_append.mp ht with h1 | h2
      · exact hben t (List.mem_append_left _ h1)
      · rcases List.mem_cons.mp h2 with rfl | h3
        · exact hbensplit.2
        · exact hben t (List.mem_append_right _ (List.mem_cons.mpr (Or.inr h3)))

/-- C5 counterexample: starting from Babbling with an in-flight gossip task
whose pull reported sync-limit and a concurrent `Shutdown()` call, the
system reaches a configuration whose state is Shutdown and then — the
gossip task firing its unguarded `setState(CatchingUp)` — one whose state
is CatchingUp: a state other than Shutdown is observed after Shutdown. -/
theorem shutdown_not_monotone_counterexample :
    Relation.ReflTransGen SysStep sysRace0 sysRace2 ∧
    sysRace2.state = NState.ShutdownSt ∧
    Relation.ReflTransGen SysStep sysRace2 sysRace3 ∧
    sysRace3.state ≠ NState.ShutdownSt := by
  have s01 : SysStep sysRace0 sysRace1 :=
    SysStep.mk NState.Babbling [] [shutdownTask] TaskStep.pullStep
      [TaskStep.setState NState.CatchingUp, TaskStep.sendReturn]
  have s12 : SysStep sysRace1 sysRace2 :=
    SysStep.mk NState.Babbling
      [[TaskStep.setState NState.CatchingUp, TaskStep.sendReturn]] []
      (TaskStep.setState NState.ShutdownSt)
      [TaskStep.closeShutdownCh, TaskStep.waitRoutines, TaskStep.stopControlTimer,
       TaskStep.closeTransport, TaskStep.closeStore]
  have s23 : SysStep sysRace2 sysRace3 :=
    SysStep.mk NState.ShutdownSt [] [shutdownTask.tail]
      (TaskStep.setState NState.CatchingUp) [TaskStep.sendReturn]
  exact ⟨Relation.ReflTransGen.head s01 (Relation.ReflTransGen.head s12
          Relation.ReflTransGen.refl),
         rfl,
         Relation.ReflTransGen.head s23 Relation.ReflTransGen.refl,
         by decide⟩

/-- C5 amended: once the state is Shutdown, every later observed state is
Shutdown provided no still-running task can write another state — i.e. when
every remaining task program (like the rest of `Shutdown()` itself) contains
no `setState` step with a non-Shutdown argument.  An in-flight `gossip`,
`connect` or `fastForward` task spawned before shutdown escapes this proviso
and may overwrite the state, as the counterexample shows. -/
theorem shutdown_monotone_of_benign_tasks (a b : Sys)
    (hstate : a.state = NState.ShutdownSt)
    (hben : ∀ t ∈ a.tasks, benignTask t = true)
    (hreach : Relation.ReflTransGen SysStep a b) :
    b.state = NState.ShutdownSt := by
  have inv : b.state = NState.ShutdownSt ∧ ∀ t ∈ b.tasks, benignTask t = true := by
    induction hreach with
    | refl => exact ⟨hstate, hben⟩
    | tail _ hstep ih => exact sysStep_preserves_shutdown ih hstep
  exact inv.1

/-- C5 witness: the amended statement applied to the system in which only
the remainder of `Shutdown()` is still running, across one of its steps. -/
theorem shutdown_monotone_of_benign_tasks_witness :
    (Sys.mk NState.ShutdownSt [shutdownTask.tail]).state = NState.ShutdownSt ∧
    (Sys.mk NState.ShutdownSt [[TaskStep.waitRoutines, TaskStep.stopControlTimer,
        TaskStep.closeTransport, TaskStep.closeStore]]).state = NState.ShutdownSt :=
  ⟨shutdown_monotone_of_benign_tasks _ _ rfl (by decide) Relation.ReflTransGen.refl,
   shutdown_monotone_of_benign_tasks
     (Sys.mk NState.ShutdownSt [shutdownTask.tail]) _ rfl (by decide)
     (Relation.ReflTransGen.head
       (SysStep.mk NState.ShutdownSt [] [] TaskStep.closeShutdownCh
         [TaskStep.waitRoutines, TaskStep.stopControlTimer,
          TaskStep.closeTransport, TaskStep.closeStore])
       Relation.ReflTransGen.refl)⟩

/-- Helper for C3: membership in an exclusion result. -/
theorem excludePeer_mem {l : List Peer} {x : Nat} {p : Peer}
    (h : p ∈ ExcludePeer l x) : p ∈ l ∧ p.id ≠ x := by
  have := List.mem_filter.mp h
  exact ⟨this.1, by simpa using this.2⟩

/-- Helper for C3: excluding one id from a list of peers with pairwise
distinct ids removes at most one element. -/
theorem excludePeer_length_ge {l : List Peer} (x : Nat)
    (hnd : (l.map Peer.id).Nodup) :
    l.length - 1 ≤ (ExcludePeer l x).length := by
  induction l with
  | nil => simp [ExcludePeer]
  | cons a t ih =>
    rw [List.map_cons, List.nodup_cons] at hnd
    by_cases hax : a.id = x
    · have hkeep : ExcludePeer t x = t := by
        apply List.filter_eq_self.mpr
        intro p hp
        simp only [ne_eq, decide_eq_true_eq]
        intro hpx
        exact hnd.1 (List.mem_map.mpr ⟨p, hp, by rw [hpx, hax]⟩)
      have : ExcludePeer (a :: t) x = ExcludePeer t x := by
        simp [ExcludePeer, List.filter_cons, hax]
      rw [this, hkeep]
      simp
    · have : ExcludePeer (a :: t) x = a :: ExcludePeer t x := by
        simp [ExcludePeer, List.filter_cons, hax]
      rw [this]
      have := ih hnd.2
      simp only [List.length_cons]
      omega

/-- Helper for C3: exclusion results are sublists, so distinctness of the
mapped ids is inherited. -/
theorem excludePeer_map_nodup {l : List Peer} (x : Nat)
    (hnd : (l.map Peer.id).Nodup) :
    ((ExcludePeer l x).map Peer.id).Nodup :=
  ((List.filter_sublist l).map Peer.id).nodup hnd

/-- Helper for C3: whatever `Next` returns was drawn from the selectable
list (the peer set minus self, minus — when more than one candidate
remains — the last-contacted id). -/
theorem next_mem_selectable (ps : RandomPeerSelector) (r : Nat) {p : Peer}
    (h : RandomPeerSelector.Next ps r = some p) :
    p ∈ (if (ExcludePeer ps.peers ps.selfID).length > 1
         then ExcludePeer (ExcludePeer ps.peers ps.selfID) ps.last
         else ExcludePeer ps.peers ps.selfID) := by
  simp only [RandomPeerSelector.Next] at h
  set sel := (if (ExcludePeer ps.peers ps.selfID).length > 1
       then ExcludePeer (ExcludePeer ps.peers ps.selfID) ps.last
       else ExcludePeer ps.peers ps.selfID) with hsel
  by_cases h0 : sel.length = 0
  · rw [dif_pos h0] at h
    exact absurd h (by simp)
  · rw [dif_neg h0] at h
    have := Option.some.inj h
    rw [← this]
    exact List.get_mem _ _ _

/-- Helper for C3: `Next` returns `none` only when the selectable list is
empty. -/
theorem next_eq_none_selectable (ps : RandomPeerSelector) (r : Nat)
    (h : RandomPeerSelector.Next ps r = none) :
    (if (ExcludePeer ps.peers ps.selfID).length > 1
     then ExcludePeer (ExcludePeer ps.peers ps.selfID) ps.last
     else ExcludePeer ps.peers ps.selfID).length = 0 := by
  simp only [RandomPeerSelector.Next] at h
  set sel := (if (ExcludePeer ps.peers ps.selfID).length > 1
       then ExcludePeer (ExcludePeer ps.peers ps.selfID) ps.last
       else ExcludePeer ps.peers ps.selfID) with hsel
  by_cases h0 : sel.length = 0
  · exact h0
  · rw [dif_neg h0] at h
    exact absurd h (by simp)

/-- C3: `Next()` returns none when the peer set minus self is empty; with at
least two peers besides self (ids pairwise distinct, as the peer set is
keyed by id) the returned peer's id differs from both the selector's own id
and the id last passed to `UpdateLast`; and when exactly one peer besides
self remains, that peer is returned even if its id equals the last one. -/
theorem randomPeerSelector_next_spec (ps : RandomPeerSelector) (r : Nat)
    (hnd : (ps.peers.map Peer.id).Nodup) :
    (ExcludePeer ps.peers ps.selfID = [] → RandomPeerSelector.Next ps r = none) ∧
    (2 ≤ (ExcludePeer ps.peers ps.selfID).length →
      ∃ p, RandomPeerSelector.Next ps r = some p ∧
        p.id ≠ ps.selfID ∧ p.id ≠ ps.last) ∧
    (∀ p, ExcludePeer ps.peers ps.selfID = [p] →
      RandomPeerSelector.Next ps r = some p) := by
  refine ⟨?_, ?_, ?_⟩
  · intro h
    simp [RandomPeerSelector.Next, h]
  · intro h2
    have hgt : (ExcludePeer ps.peers ps.selfID).length > 1 := by omega
    have hnd1 : ((ExcludePeer ps.peers ps.selfID).map Peer.id).Nodup :=
      excludePeer_map_nodup ps.selfID hnd
    have hlen : 1 ≤ (ExcludePeer (ExcludePeer ps.peers ps.selfID) ps.last).length := by
      have := excludePeer_length_ge (l := ExcludePeer ps.peers ps.selfID) ps.last hnd1
      omega
    cases hopt : RandomPeerSelector.Next ps r with
    | none =>
        have := next_eq_none_selectable ps r hopt
        rw [if_pos hgt] at this
        omega
    | some p =>
        have hmem := next_mem_selectable ps r hopt
        rw [if_pos hgt] at hmem
        have h1 := excludePeer_mem hmem
        have h0 := excludePeer_mem h1.1
        exact ⟨p, rfl, h0.2, h1.2⟩
  · intro p h
    have hle : ¬(ExcludePeer ps.peers ps.selfID).length > 1 := by
      rw [h]
      simp
    have hne : ¬(ExcludePeer ps.peers ps.selfID).length = 0 := by
      rw [h]
      simp
    simp [RandomPeerSelector.Next, if_neg hle, dif_neg hne, h]

/-- C3 witness: a three-peer set shows the two-peer exclusion, and a
two-peer set shows the single-candidate fallback onto the last-contacted
peer. -/
theorem randomPeerSelector_next_spec_witness :
    (∃ p, RandomPeerSelector.Next ⟨[⟨1, "a", "ka"⟩, ⟨2, "b", "kb"⟩, ⟨3, "c", "kc"⟩], 1, 2⟩ 0 =
        some p ∧ p.id ≠ 1 ∧ p.id ≠ 2) ∧
    RandomPeerSelector.Next ⟨[⟨1, "a", "ka"⟩, ⟨2, "b", "kb"⟩], 1, 2⟩ 5 =
      some ⟨2, "b", "kb"⟩ ∧
    RandomPeerSelector.Next ⟨[⟨1, "a", "ka"⟩], 1, 0⟩ 7 = none :=
  ⟨(randomPeerSelector_next_spec ⟨[⟨1, "a", "ka"⟩, ⟨2, "b", "kb"⟩, ⟨3, "c", "kc"⟩], 1, 2⟩ 0
      (by decide)).2.1 (by decide),
   (randomPeerSelector_next_spec ⟨[⟨1, "a", "ka"⟩, ⟨2, "b", "kb"⟩], 1, 2⟩ 5
      (by decide)).2.2 ⟨2, "b", "kb"⟩ (by decide),
   (randomPeerSelector_next_spec ⟨[⟨1, "a", "ka"⟩], 1, 0⟩ 7 (by decide)).1 (by decide)⟩

end Babble
